import Mathlib

/-!
Verification of the telemetry pipeline (`src/python/ingest_and_clean.py` and
`src/python/generate_telemetry.py`).

Shallow embedding conventions:

* Python floats are modelled by `ℚ`; all comparisons performed by the code
  (`< 0`, `== 0`, `< -273.15`, `> 6000`) are exact on the literals involved.
* A JSON value sitting in one of the three numeric positions is observed by the
  code only through `float(value)`: either the coercion succeeds with some
  number (JSON numbers, booleans, numeric strings) — modelled by `NumVal.fl x` —
  or it raises `ValueError`/`TypeError` — modelled by `NumVal.bad`.
* The JSON value in the `timestamp` position is observed only through
  `timestamp_str.replace('Z', '+00:00')` followed by `datetime.fromisoformat`.
  A non-string value makes `.replace` raise `AttributeError` (modelled by
  `TsVal.nonStr`); for a string the verdict of `datetime.fromisoformat`
  (library code outside this repository) is carried alongside the string in
  the `isoOK` flag of `TsVal.str`, since the code never inspects the parsed
  datetime itself, only whether parsing succeeded.
* The `engine_id` value is only tested for presence, compared for equality in
  the dedup key, and copied to the output, so it is represented by a `String`.
* Records are modelled as JSON objects restricted to the five fields the code
  reads (`timestamp`, `engine_id`, `chamber_pressure`, `fuel_flow`,
  `temperature`); extra fields are copied around by the Python code but never
  observed nor emitted.
-/

/-- The `timestamp` value of a parsed record, as observed by `clean_record`:
a string (with the `datetime.fromisoformat` verdict for
`s.replace('Z', '+00:00')` carried in `isoOK`), or a non-string JSON value on
which `.replace` raises `AttributeError`. -/
inductive TsVal where
  | str (s : String) (isoOK : Bool)
  | nonStr
deriving DecidableEq

/-- A JSON value in a numeric field position, as observed through Python
`float(value)`: success with value `x`, or an uncaught-by-the-field-loop
`ValueError`/`TypeError` (which the loop catches and turns into a drop). -/
inductive NumVal where
  | fl (x : ℚ)
  | bad
deriving DecidableEq

/-- A parsed JSON-object record, restricted to the five fields read by
`TelemetryProcessor`. `none` models an absent key. -/
structure Record where
  timestamp : Option TsVal
  engine_id : Option String
  chamber_pressure : Option NumVal
  fuel_flow : Option NumVal
  temperature : Option NumVal
deriving DecidableEq

/-- The statistics dictionary of `TelemetryProcessor.__init__`. -/
structure Stats where
  total_records : ℕ
  valid_records : ℕ
  dropped_records : ℕ
  corrected_records : ℕ
  parsing_errors : ℕ
  duplicate_records : ℕ
deriving DecidableEq

/-- All six counters start at zero. -/
def initStats : Stats :=
  { total_records := 0, valid_records := 0, dropped_records := 0,
    corrected_records := 0, parsing_errors := 0, duplicate_records := 0 }

/-- `TelemetryProcessor.validate_record`: both required fields
(`timestamp`, `engine_id`) must be present. -/
def validate_record (r : Record) : Bool :=
  r.timestamp.isSome && r.engine_id.isSome

/-- The three names iterated over by the numeric-cleaning loop
(`self.numeric_fields`), in source order. -/
inductive NumField where
  | pressure
  | flow
  | temp
deriving DecidableEq

/-- `self.numeric_fields = ["chamber_pressure", "fuel_flow", "temperature"]`. -/
def numeric_fields : List NumField := [.pressure, .flow, .temp]

/-- `cleaned_record[field]` for a numeric field (absent gives `none`). -/
def getField (r : Record) : NumField → Option NumVal
  | .pressure => r.chamber_pressure
  | .flow => r.fuel_flow
  | .temp => r.temperature

/-- `cleaned_record[field] = v` for a numeric field. -/
def setField (r : Record) : NumField → NumVal → Record
  | .pressure, v => { r with chamber_pressure := some v }
  | .flow, v => { r with fuel_flow := some v }
  | .temp, v => { r with temperature := some v }

/-- One iteration of the numeric-cleaning loop in `clean_record`
(lines 116–143): skip absent fields; a failed `float()` coercion returns
`None` (drop); negative chamber pressure is replaced by its absolute value
(setting `corrected`); a temperature below −273.15 drops the record while one
above 6000 is only logged; a zero fuel flow is replaced by 0.1 (setting
`corrected`). -/
def cleanStep (field : NumField) : Record × Bool → Option (Record × Bool) :=
  fun acc =>
    match getField acc.1 field with
    | none => some acc
    | some .bad => none
    | some (.fl value) =>
      if field = .pressure ∧ value < 0 then
        some (setField acc.1 .pressure (.fl |value|), true)
      else if field = .temp then
        if value < -273.15 then none else some acc
      else if field = .flow ∧ value = 0 then
        some (setField acc.1 .flow (.fl 0.1), true)
      else some acc

/-- The numeric-cleaning loop: fields processed in order with the early
`return None` of the Python loop modelled by `Option`. -/
def cleanFields : Record × Bool → List NumField → Option (Record × Bool)
  | acc, [] => some acc
  | acc, f :: fs =>
    match cleanStep f acc with
    | none => none
    | some acc2 => cleanFields acc2 fs

/-- Outcome of `TelemetryProcessor.clean_record`: a cleaned record together
with the `corrected` flag, a `None` return (drop), or an uncaught exception
(`AttributeError` from `timestamp_str.replace` when the timestamp value is
not a string — not in the caught `(ValueError, KeyError)`). -/
inductive CleanResult where
  | ok (r : Record) (corrected : Bool)
  | drop
  | exn
deriving DecidableEq

/-- `TelemetryProcessor.clean_record` (lines 101–148). A missing timestamp
raises `KeyError` (caught → drop); a non-string timestamp raises
`AttributeError` (uncaught → exception); an invalid ISO string raises
`ValueError` (caught → drop); otherwise the numeric fields are cleaned and,
on success, the record is returned with the `corrected` flag (the
`corrected_records` increment is accounted for by the caller model using
this flag, mirroring the increment at lines 145–146 which only runs on the
success path). -/
def clean_record (r : Record) : CleanResult :=
  match r.timestamp with
  | none => .drop
  | some .nonStr => .exn
  | some (.str _ isoOK) =>
    if isoOK then
      match cleanFields (r, false) numeric_fields with
      | none => .drop
      | some (r2, c) => .ok r2 c
    else .drop

/-- A line whose `json.loads` succeeds with a non-object (non-dict) JSON
value, classified by what the source then does with it. `validate_record`
evaluates `field not in record` (line 93): on an int, float, bool or null
the membership test raises a `TypeError` that nothing catches; on a string
or array it is a substring or element test, so a value missing one of the
required names is dropped normally, while one containing both names passes
validation and then crashes in `clean_record` — `record.copy()` raises
`AttributeError` on a string (line 103, before the `try`), and
`cleaned_record["timestamp"]` raises `TypeError` on an array (line 108,
not in the caught `(ValueError, KeyError)`). -/
inductive NonObjVal where
  | scalar
  | containerMissingField
  | containerWithBothFields
deriving DecidableEq

/-- A line of the input stream as observed by `process_line`: blank or
comment (skipped before parsing), malformed JSON (`JSONDecodeError`), a
parsed JSON-object record, or a line parsing to a non-object JSON value
(`json.loads("123")` succeeds and returns an int). -/
inductive LineInput where
  | blank
  | malformed
  | record (r : Record)
  | nonObject (v : NonObjVal)
deriving DecidableEq

/-- Result of `TelemetryProcessor.process_line`: updated stats and an
optional accepted record, or an uncaught exception escaping with the stats
as updated so far. -/
inductive LineResult where
  | ok (st : Stats) (out : Option Record)
  | exn (st : Stats)
deriving DecidableEq

/-- `TelemetryProcessor.process_line` (lines 150–179): blank/comment lines
return `None` without touching stats; a `JSONDecodeError` increments
`parsing_errors`; any successfully parsed line increments `total_records`,
then a record is validated (failure increments `dropped_records`) and
cleaned (a `None` from `clean_record` increments `dropped_records`; success
increments `corrected_records` when the corrected flag is set and
`valid_records`). A parsed non-object either escapes with an uncaught
exception (`TypeError` in `validate_record` for a scalar; `AttributeError`
or `TypeError` in `clean_record` for a string/array containing both
required names) or, for a string/array missing a required name, is dropped
by `validate_record` like a record with missing fields. -/
def process_line (st : Stats) : LineInput → LineResult
  | .blank => .ok st none
  | .malformed => .ok { st with parsing_errors := st.parsing_errors + 1 } none
  | .record r =>
    let st1 := { st with total_records := st.total_records + 1 }
    if validate_record r then
      match clean_record r with
      | .drop => .ok { st1 with dropped_records := st1.dropped_records + 1 } none
      | .exn => .exn st1
      | .ok r2 c =>
        let st2 := if c then { st1 with corrected_records := st1.corrected_records + 1 } else st1
        .ok { st2 with valid_records := st2.valid_records + 1 } (some r2)
    else
      .ok { st1 with dropped_records := st1.dropped_records + 1 } none
  | .nonObject v =>
    let st1 := { st with total_records := st.total_records + 1 }
    match v with
    | .scalar => .exn st1
    | .containerMissingField =>
      .ok { st1 with dropped_records := st1.dropped_records + 1 } none
    | .containerWithBothFields => .exn st1

/-- The read loop of `process_stream` (lines 191–198). The `try` block wraps
the whole `for` loop, so an uncaught exception from `process_line` stops the
iteration: the remaining lines are never processed and the records collected
so far are carried to `write_csv`. The `Bool` component records whether the
loop was aborted by such an exception. -/
def processLines (st : Stats) (acc : List Record) : List LineInput → Stats × List Record × Bool
  | [] => (st, acc, false)
  | l :: ls =>
    match process_line st l with
    | .ok st2 none => processLines st2 acc ls
    | .ok st2 (some r) => processLines st2 (acc ++ [r]) ls
    | .exn st2 => (st2, acc, true)

/-- The dedup key of `write_csv`:
`(record.get('timestamp'), record.get('engine_id'))`. -/
def recordKey (r : Record) : Option TsVal × Option String :=
  (r.timestamp, r.engine_id)

/-- The dedup loop of `write_csv` (lines 211–224): first occurrence of each
key is kept in stream order, later occurrences are counted. `seen` models
the `seen_records` set (only membership is used). -/
def dedupGo (seen : List (Option TsVal × Option String)) : List Record → List Record × ℕ
  | [] => ([], 0)
  | r :: rs =>
    if recordKey r ∈ seen then
      ((dedupGo seen rs).1, (dedupGo seen rs).2 + 1)
    else
      (r :: (dedupGo (recordKey r :: seen) rs).1, (dedupGo (recordKey r :: seen) rs).2)

/-- The file-system effect of `write_csv`: either no file is written at all,
or a CSV whose data rows are the given records projected onto the five
header fields (which is exactly what a `Record` is). -/
inductive CsvOut where
  | noFile
  | file (rows : List Record)
deriving DecidableEq

/-- `TelemetryProcessor.write_csv` (lines 204–246): with no records it
returns before opening the file; otherwise it deduplicates, stores the
duplicate count into `stats["duplicate_records"]` when positive, and writes
the header plus the unique records. -/
def write_csv (st : Stats) (records : List Record) : Stats × CsvOut :=
  if records = [] then (st, .noFile)
  else
    let dd := dedupGo [] records
    let st2 := if dd.2 > 0 then { st with duplicate_records := dd.2 } else st
    (st2, .file dd.1)

/-- The data reported by `log_summary` (lines 248–267): the six counters,
and — only when `total_records > 0` — the success rate, the final record
count `valid − duplicates`, and the final output rate. -/
structure Summary where
  total_records : ℕ
  valid_records : ℕ
  dropped_records : ℕ
  corrected_records : ℕ
  duplicate_records : ℕ
  parsing_errors : ℕ
  success_rate : Option ℚ
  final_records : Option ℤ
  output_rate : Option ℚ
deriving DecidableEq

/-- `TelemetryProcessor.log_summary`. -/
def log_summary (st : Stats) : Summary :=
  { total_records := st.total_records, valid_records := st.valid_records,
    dropped_records := st.dropped_records, corrected_records := st.corrected_records,
    duplicate_records := st.duplicate_records, parsing_errors := st.parsing_errors,
    success_rate :=
      if st.total_records > 0 then
        some ((st.valid_records : ℚ) / (st.total_records : ℚ) * 100)
      else none,
    final_records :=
      if st.total_records > 0 then
        some ((st.valid_records : ℤ) - (st.duplicate_records : ℤ))
      else none,
    output_rate :=
      if st.total_records > 0 then
        some (((st.valid_records : ℚ) - (st.duplicate_records : ℚ)) / (st.total_records : ℚ) * 100)
      else none }

/-- The full outcome of one `process_stream` run: final stats (after
`write_csv` possibly stored the duplicate count), the file effect, the
summary logged by the unconditional `log_summary` call, and whether the
read loop was aborted by an uncaught per-record exception. -/
structure StreamResult where
  stats : Stats
  output : CsvOut
  summary : Summary
  aborted : Bool
deriving DecidableEq

/-- `TelemetryProcessor.process_stream` on a fresh processor (stats all
zero): run the read loop, then `write_csv`, then `log_summary`. -/
def process_stream (lines : List LineInput) : StreamResult :=
  let res := processLines initStats [] lines
  let wc := write_csv res.1 res.2.1
  { stats := wc.1, output := wc.2, summary := log_summary wc.1, aborted := res.2.2 }

/-- The records accumulated by the read loop (the `processed_records` list
handed to `write_csv`). -/
def surviving_records (lines : List LineInput) : List Record :=
  (processLines initStats [] lines).2.1

/-!
The Telemetry Generator (`src/python/generate_telemetry.py`). Randomness is
made explicit: every `random.*` draw performed while producing one primary
reading is a field of `GenStep`, and the boolean draws record the outcome of
the comparison `random.random() < rate` (folding the engine-dependent
threshold of the critical-failure trial into the outcome). Timestamps are
modelled as rational seconds since the generation start epoch; `isoformat`
serialisation is outside the observations the claims make.
-/

/-- One entry of `TelemetryGenerator.engines`: performance factor and
failure rate (the failure rate only scales the critical-failure trial
threshold, whose outcome is carried as a boolean draw). -/
structure EngineConfig where
  performance : ℚ
  failure_rate : ℚ
deriving DecidableEq

/-- `self.engines` of `TelemetryGenerator.__init__`. -/
def engines : List (String × EngineConfig) :=
  [("TRE-001", { performance := 0.88, failure_rate := 0.12 }),
   ("TRE-002", { performance := 0.75, failure_rate := 0.18 }),
   ("TRE-003", { performance := 0.92, failure_rate := 0.08 }),
   ("TRE-004", { performance := 0.82, failure_rate := 0.15 }),
   ("TRE-005", { performance := 0.85, failure_rate := 0.13 })]

/-- `random.choices(list(self.engines.keys()), weights)[0]` always returns
one of the five configured engines; the draw is modelled by its index. -/
def chosenEngine (i : Fin 5) : String × EngineConfig :=
  engines.get (Fin.cast (by rfl) i)

/-- A generated reading: timestamp (rational seconds), engine id, and the
three numeric quantities, each possibly removed by the missing-fields
anomaly. -/
structure Reading where
  timestamp : ℚ
  engine_id : String
  chamber_pressure : Option ℚ
  fuel_flow : Option ℚ
  temperature : Option ℚ
deriving DecidableEq

/-- `TelemetryGenerator._generate_pressure`: linear interpolation of the
150–300 psi range by the performance factor, Gaussian noise (the draw is
the `noise` argument), floored at 0. -/
def generate_pressure (performance_factor noise : ℚ) : ℚ :=
  max 0 (150 + (300 - 150) * performance_factor + noise)

/-- `TelemetryGenerator._generate_fuel_flow`: 50–150 kg/s range, noise,
floored at 0. -/
def generate_fuel_flow (performance_factor noise : ℚ) : ℚ :=
  max 0 (50 + (150 - 50) * performance_factor + noise)

/-- `TelemetryGenerator._generate_temperature`: 2000–4000 range scaled by
`1 + 0.3 * (1 - performance)`, noise, floored at 500. -/
def generate_temperature (performance_factor noise : ℚ) : ℚ :=
  max 500 (2000 + (4000 - 2000) * (1 + 0.3 * (1 - performance_factor)) + noise)

/-- The three Gaussian draws (`random.normalvariate`) used by one base
reading. -/
structure BaseNoise where
  pressure : ℚ
  flow : ℚ
  temp : ℚ
deriving DecidableEq

/-- `TelemetryGenerator.generate_base_reading`. -/
def generate_base_reading (engine_id : String) (performance_factor : ℚ)
    (ts : ℚ) (n : BaseNoise) : Reading :=
  { timestamp := ts, engine_id := engine_id,
    chamber_pressure := some (generate_pressure performance_factor n.pressure),
    fuel_flow := some (generate_fuel_flow performance_factor n.flow),
    temperature := some (generate_temperature performance_factor n.temp) }

/-- The `random.choice` outcome in `_inject_critical_failure`. -/
inductive FailureType where
  | fuel_system_failure
  | pressure_spike
  | temperature_runaway
  | combustion_instability
deriving DecidableEq

/-- `TelemetryGenerator._inject_critical_failure`; `draw` is the
`random.uniform` value used by the chosen branch (fuel-system failure uses
no draw and forces the flow to zero). -/
def inject_critical_failure (ft : FailureType) (draw : ℚ) (r : Reading) : Reading :=
  match ft with
  | .fuel_system_failure => { r with fuel_flow := some 0 }
  | .pressure_spike => { r with chamber_pressure := some draw }
  | .temperature_runaway => { r with temperature := some draw }
  | .combustion_instability => { r with chamber_pressure := some draw }

/-- `del anomaly_reading[field]` for one sampled field in
`_inject_missing_fields`. -/
def removeField (r : Reading) : NumField → Reading
  | .pressure => { r with chamber_pressure := none }
  | .flow => { r with fuel_flow := none }
  | .temp => { r with temperature := none }

/-- `TelemetryGenerator._inject_missing_fields`: delete the 1–2 sampled
fields. -/
def inject_missing_fields (fs : List NumField) (r : Reading) : Reading :=
  fs.foldl removeField r

/-- `reading[field] = v` for one numeric field in `_inject_out_of_range`. -/
def setReadingField (r : Reading) : NumField → ℚ → Reading
  | .pressure, v => { r with chamber_pressure := some v }
  | .flow, v => { r with fuel_flow := some v }
  | .temp, v => { r with temperature := some v }

/-- `TelemetryGenerator._inject_out_of_range`: overwrite the chosen field
with the drawn impossible value. -/
def inject_out_of_range (f : NumField) (v : ℚ) (r : Reading) : Reading :=
  setReadingField r f v

/-- The random draws consumed by `inject_anomalies` for one reading. The
three booleans are the outcomes of the successive `random.random() < rate`
trials; the remaining fields are the draws used by whichever branch fires. -/
structure AnomalyDraw where
  critical : Bool
  failure_type : FailureType
  failure_value : ℚ
  missing : Bool
  missing_fields : List NumField
  out_of_range : Bool
  oor_field : NumField
  oor_value : ℚ
deriving DecidableEq

/-- `TelemetryGenerator.inject_anomalies`: the three trials are checked in
order, each returning early when it fires, so at most one category applies
per reading. -/
def inject_anomalies (d : AnomalyDraw) (r : Reading) : Reading :=
  if d.critical then inject_critical_failure d.failure_type d.failure_value r
  else if d.missing then inject_missing_fields d.missing_fields r
  else if d.out_of_range then inject_out_of_range d.oor_field d.oor_value r
  else r

/-- All random draws consumed by one iteration of the loop in
`generate_telemetry_batch`: the `random.uniform(1, 5)` interval (ignored
for the first reading), the engine choice, the base-reading noise, the
anomaly draws, and the `random.random() < duplicates rate` outcome. -/
structure GenStep where
  interval : ℚ
  engine : Fin 5
  noise : BaseNoise
  anomaly : AnomalyDraw
  dup : Bool
deriving DecidableEq

/-- The reading produced by one loop iteration at timestamp `ts`. -/
def stepReading (ts : ℚ) (s : GenStep) : Reading :=
  inject_anomalies s.anomaly
    (generate_base_reading (chosenEngine s.engine).1
      (chosenEngine s.engine).2.performance ts s.noise)

/-- The loop of `generate_telemetry_batch` (lines 193–213): advance the
timestamp (except for the first reading), build and corrupt the reading,
append it to `records`, and queue a copy in `duplicates_to_add` when the
duplicate trial fires. Returns `(records, duplicates_to_add)`. -/
def genLoop (first : Bool) (ts : ℚ) : List GenStep → List Reading × List Reading
  | [] => ([], [])
  | s :: ss =>
    let ts2 := if first then ts else ts + s.interval
    let r := stepReading ts2 s
    ((r :: (genLoop false ts2 ss).1),
     ((if s.dup then [r] else []) ++ (genLoop false ts2 ss).2))

/-- `TelemetryGenerator.generate_telemetry_batch`: run the loop from the
start time, then `records.extend(duplicates_to_add)`. -/
def generate_telemetry_batch (start : ℚ) (steps : List GenStep) : List Reading :=
  (genLoop true start steps).1 ++ (genLoop true start steps).2

/-- Number of iterations whose duplicate trial fired. -/
def dupCount (steps : List GenStep) : ℕ :=
  (steps.filter (·.dup)).length

/-- Modelled from the spec (§4.1, Reading construction): the expected
timestamp sequence of the primary readings — “Each reading's `timestamp`
advances from the previous one by a uniformly random interval in [1, 5]
seconds (first reading uses the generation start time).” Used as the
specification side of claim C6. -/
def specTimeline (first : Bool) (t : ℚ) : List GenStep → List ℚ
  | [] => []
  | s :: ss =>
    let t2 := if first then t else t + s.interval
    t2 :: specTimeline false t2 ss

/-- Post-condition of one cleaning step on its own field: the invariant a
field satisfies after `clean_record` has processed it. -/
def fieldClean (f : NumField) : Option NumVal → Prop
  | none => True
  | some .bad => False
  | some (.fl x) =>
    match f with
    | .pressure => ¬ x < 0
    | .flow => x ≠ 0
    | .temp => ¬ x < -273.15

/-- Lines on which `json.loads` succeeds (with an object or not): exactly
the lines that increment `total_records` at line 160. -/
def isParsedLine : LineInput → Bool
  | .record _ => true
  | .nonObject _ => true
  | _ => false

/-- Lines on which `json.loads` raises `JSONDecodeError`. -/
def isMalformedLine : LineInput → Bool
  | .malformed => true
  | _ => false


/-- A record that is already clean: valid ISO timestamp, engine id present,
all numeric values in range. -/
def cleanRec : Record :=
  { timestamp := some (.str "2024-01-01T00:00:00" true), engine_id := some "TRE-001",
    chamber_pressure := some (.fl 200), fuel_flow := some (.fl 100),
    temperature := some (.fl 3000) }

/-- Same `(timestamp, engine_id)` key as `cleanRec` but a different numeric
payload — the later duplicate of the dedup test. -/
def cleanRecAltPayload : Record :=
  { timestamp := some (.str "2024-01-01T00:00:00" true), engine_id := some "TRE-001",
    chamber_pressure := some (.fl 250), fuel_flow := some (.fl 90),
    temperature := some (.fl 2800) }

/-- The dedup input of the C2 witness: two accepted records sharing a key. -/
def c2rows : List Record := [cleanRec, cleanRecAltPayload]

/-- A record with a negative chamber pressure (the repairable defect). -/
def dirtyRec : Record :=
  { timestamp := some (.str "2024-01-01T00:00:10" true), engine_id := some "TRE-001",
    chamber_pressure := some (.fl (-40)), fuel_flow := some (.fl 10),
    temperature := some (.fl 3000) }

/-- What `clean_record` makes of `dirtyRec`: pressure replaced by 40. -/
def dirtyRecCleaned : Record :=
  { timestamp := some (.str "2024-01-01T00:00:10" true), engine_id := some "TRE-001",
    chamber_pressure := some (.fl 40), fuel_flow := some (.fl 10),
    temperature := some (.fl 3000) }

/-- A record whose temperature is below absolute zero (valid timestamp). -/
def subZeroRec : Record :=
  { timestamp := some (.str "2024-01-01T00:00:20" true), engine_id := some "TRE-004",
    chamber_pressure := none, fuel_flow := none, temperature := some (.fl (-300)) }

/-- A record where a pressure correction happens first and the sub-zero
temperature then drops the whole record. -/
def pressThenSubZeroRec : Record :=
  { timestamp := some (.str "2024-01-01T00:00:25" true), engine_id := some "TRE-004",
    chamber_pressure := some (.fl (-40)), fuel_flow := some (.fl 10),
    temperature := some (.fl (-300)) }

/-- A record whose timestamp value is present but not a string: JSON input
such as the line with timestamp 123. `timestamp_str.replace` raises
`AttributeError` on it, which `clean_record` does not catch. -/
def nonStrTsRec : Record :=
  { timestamp := some .nonStr, engine_id := some "TRE-002",
    chamber_pressure := none, fuel_flow := none, temperature := none }

/-- As `nonStrTsRec`, but with a sub-absolute-zero temperature also present:
the hypothesis of claim C3 holds, yet the uncaught exception fires first. -/
def nonStrTsSubZeroRec : Record :=
  { timestamp := some .nonStr, engine_id := some "TRE-002",
    chamber_pressure := none, fuel_flow := none, temperature := some (.fl (-300)) }

/-- A second clean record with a distinct key, used as the line that the
aborted run never reaches. -/
def goodRecB : Record :=
  { timestamp := some (.str "2024-01-01T00:00:05" true), engine_id := some "TRE-003",
    chamber_pressure := some (.fl 210), fuel_flow := some (.fl 90),
    temperature := some (.fl 2900) }

/-- The C1 failing stream: a valid record, then a record with a non-string
timestamp, then another valid record. -/
def c1lines : List LineInput :=
  [.record cleanRec, .record nonStrTsRec, .record goodRecB]

/-- A stream with a blank line, a malformed line, one valid record and one
line parsing to a non-object string/array missing a required name (dropped
by validation); its processing is never aborted. -/
def c8lines : List LineInput :=
  [.blank, .malformed, .record cleanRec, .nonObject .containerMissingField]

/-- A stream producing zero surviving records. -/
def c10lines : List LineInput := [LineInput.malformed]

/-- The stats of a fresh run after accepting exactly one corrected record. -/
def statsOneCorrected : Stats :=
  { total_records := 1, valid_records := 1, dropped_records := 0,
    corrected_records := 1, parsing_errors := 0, duplicate_records := 0 }

/-- Anomaly draws in which no trial fires: the reading passes through
`inject_anomalies` unchanged. -/
def quietAnomaly : AnomalyDraw :=
  { critical := false, failure_type := .fuel_system_failure, failure_value := 0,
    missing := false, missing_fields := [], out_of_range := false,
    oor_field := .pressure, oor_value := 0 }

/-- A generation step with interval 2 and no duplicate. -/
def stepA : GenStep :=
  { interval := 2, engine := 0, noise := { pressure := 0, flow := 0, temp := 0 },
    anomaly := quietAnomaly, dup := false }

/-- A generation step with interval 3 whose duplicate trial fires. -/
def stepB : GenStep :=
  { interval := 3, engine := 1, noise := { pressure := 1, flow := 1, temp := 1 },
    anomaly := quietAnomaly, dup := true }

/-- The concrete step list of the C6 witness. -/
def c6steps : List GenStep := [stepA, stepB]

set_option maxRecDepth 4000

theorem setField_timestamp (r : Record) (f : NumField) (v : NumVal) :
    (setField r f v).timestamp = r.timestamp := by
  cases f <;> rfl

theorem setField_engine_id (r : Record) (f : NumField) (v : NumVal) :
    (setField r f v).engine_id = r.engine_id := by
  cases f <;> rfl

theorem getField_setField_ne (r : Record) {f g : NumField} (v : NumVal) (h : g ≠ f) :
    getField (setField r f v) g = getField r g := by
  cases f <;> cases g <;> simp_all [setField, getField]

/-- `cleanStep` restated field-by-field, resolving the `field = ...` tests of
the loop body. -/
theorem cleanStep_spec (f : NumField) (r : Record) (c : Bool) :
    cleanStep f (r, c) =
      match getField r f with
      | none => some (r, c)
      | some .bad => none
      | some (.fl x) =>
        match f with
        | .pressure =>
          if x < 0 then some (setField r .pressure (.fl |x|), true) else some (r, c)
        | .temp => if x < -273.15 then none else some (r, c)
        | .flow => if x = 0 then some (setField r .flow (.fl 0.1), true) else some (r, c) := by
  cases f <;> unfold cleanStep <;>
    rcases hg : getField r _ with _ | v <;> simp only [hg] <;>
    first
      | rfl
      | (cases v <;> simp)

theorem cleanStep_establishes {f : NumField} {r r2 : Record} {c c2 : Bool}
    (h : cleanStep f (r, c) = some (r2, c2)) : fieldClean f (getField r2 f) := by
  rw [cleanStep_spec] at h
  rcases hg : getField r f with _ | v
  · rw [hg] at h
    cases h
    simpa [fieldClean, hg] using trivial
  · rcases v with x | _
    · rw [hg] at h
      cases f <;> simp only at h <;> split at h <;> cases h <;>
        simp_all [fieldClean, getField, setField] <;> try positivity
    · rw [hg] at h
      cases h

theorem cleanStep_preserves (g : NumField) {f : NumField} {r r2 : Record} {c c2 : Bool}
    (h : cleanStep f (r, c) = some (r2, c2)) (hne : g ≠ f) :
    getField r2 g = getField r g := by
  rw [cleanStep_spec] at h
  rcases hg : getField r f with _ | v
  · rw [hg] at h; cases h; rfl
  · rcases v with x | _
    · rw [hg] at h
      cases f <;> simp only at h <;> split at h <;> cases h <;>
        first
          | rfl
          | (rw [getField_setField_ne] ; assumption)
    · rw [hg] at h; cases h

theorem cleanStep_keeps_ids {f : NumField} {r r2 : Record} {c c2 : Bool}
    (h : cleanStep f (r, c) = some (r2, c2)) :
    r2.timestamp = r.timestamp ∧ r2.engine_id = r.engine_id := by
  rw [cleanStep_spec] at h
  rcases hg : getField r f with _ | v
  · rw [hg] at h; cases h; exact ⟨rfl, rfl⟩
  · rcases v with x | _
    · rw [hg] at h
      cases f <;> simp only at h <;> split at h <;> cases h <;>
        simp [setField_timestamp, setField_engine_id]
    · rw [hg] at h; cases h

theorem cleanStep_noop (f : NumField) (r : Record) (c : Bool)
    (h : fieldClean f (getField r f)) : cleanStep f (r, c) = some (r, c) := by
  rw [cleanStep_spec]
  rcases hg : getField r f with _ | v
  · rfl
  · rcases v with x | _
    · rw [hg] at h
      cases f <;> simp only [fieldClean] at h <;> simp [h]
    · rw [hg] at h; exact absurd h (by simp [fieldClean])

theorem cleanStep_mono {f : NumField} {r r2 : Record} {c2 : Bool}
    (h : cleanStep f (r, true) = some (r2, c2)) : c2 = true := by
  rw [cleanStep_spec] at h
  rcases hg : getField r f with _ | v
  · rw [hg] at h; cases h; rfl
  · rcases v with x | _
    · rw [hg] at h
      cases f <;> simp only at h <;> split at h <;> cases h <;> rfl
    · rw [hg] at h; cases h

/-- Inversion of a successful `clean_record`: the timestamp is a valid ISO
string and the three cleaning steps all succeeded in order. -/
theorem clean_record_accepted {r r2 : Record} {c : Bool}
    (h : clean_record r = .ok r2 c) :
    (∃ s, r.timestamp = some (.str s true)) ∧
    ∃ a1 a2, cleanStep .pressure (r, false) = some a1 ∧
      cleanStep .flow a1 = some a2 ∧ cleanStep .temp a2 = some (r2, c) := by
  unfold clean_record at h
  rcases hts : r.timestamp with _ | tv
  · rw [hts] at h; cases h
  · rcases tv with ⟨s, b⟩ | _
    · rw [hts] at h
      cases b
      · simp only [Bool.false_eq_true, if_false] at h; cases h
      · simp only [if_true] at h
        refine ⟨⟨s, rfl⟩, ?_⟩
        rcases h1 : cleanStep .pressure (r, false) with _ | a1
        · simp only [cleanFields, numeric_fields, h1] at h; cases h
        · simp only [cleanFields, numeric_fields, h1] at h
          rcases h2 : cleanStep .flow a1 with _ | a2
          · simp only [h2] at h; cases h
          · simp only [h2] at h
            rcases h3 : cleanStep .temp a2 with _ | a3
            · simp only [h3] at h; cases h
            · rcases a3 with ⟨r3, c3⟩
              simp only [h3] at h
              cases h
              exact ⟨a1, a2, rfl, h2, h3⟩
    · rw [hts] at h; cases h

/-- Claim C7: cleaning is idempotent on already-clean input — for every record
that survives `clean_record`, running `clean_record` again on the cleaned
record accepts it unchanged, with the corrected flag clear (zero corrections)
and no drop on the second pass. -/
theorem C7_cleaning_idempotent (r r2 : Record) (c : Bool)
    (h : clean_record r = .ok r2 c) : clean_record r2 = .ok r2 false := by
  obtain ⟨⟨s, hts⟩, a1, a2, h1, h2, h3⟩ := clean_record_accepted h
  rcases a1 with ⟨r1, c1⟩
  rcases a2 with ⟨rB, cB⟩
  have hp : fieldClean .pressure (getField r2 .pressure) := by
    have e1 := cleanStep_establishes h1
    have e2 := cleanStep_preserves .pressure h2 (by decide)
    have e3 := cleanStep_preserves .pressure h3 (by decide)
    rw [e3, e2]; exact e1
  have hf : fieldClean .flow (getField r2 .flow) := by
    have e2 := cleanStep_establishes h2
    have e3 := cleanStep_preserves .flow h3 (by decide)
    rw [e3]; exact e2
  have ht : fieldClean .temp (getField r2 .temp) := cleanStep_establishes h3
  have hts2 : r2.timestamp = some (.str s true) := by
    have k1 := (cleanStep_keeps_ids h1).1
    have k2 := (cleanStep_keeps_ids h2).1
    have k3 := (cleanStep_keeps_ids h3).1
    rw [k3, k2, k1, hts]
  unfold clean_record
  rw [hts2]
  simp only [if_true]
  have s1 := cleanStep_noop .pressure r2 false hp
  have s2 := cleanStep_noop .flow r2 false hf
  have s3 := cleanStep_noop .temp r2 false ht
  simp only [cleanFields, numeric_fields, s1, s2, s3]

/-- `process_line` on a parsed record, restated with the stats updates
flattened. -/
theorem process_line_record_eq (st : Stats) (r : Record) :
    process_line st (.record r) =
      if validate_record r then
        match clean_record r with
        | .drop =>
          .ok { st with
                total_records := st.total_records + 1
                dropped_records := st.dropped_records + 1 } none
        | .exn => .exn { st with total_records := st.total_records + 1 }
        | .ok r2 c =>
          .ok { st with
                total_records := st.total_records + 1
                valid_records := st.valid_records + 1
                corrected_records := st.corrected_records + (if c then 1 else 0) }
            (some r2)
      else
        .ok { st with
              total_records := st.total_records + 1
              dropped_records := st.dropped_records + 1 } none := by
  simp only [process_line]
  split
  · rcases clean_record r with ⟨r2, c⟩ | _ | _
    · cases c <;> rfl
    · rfl
    · rfl
  · rfl

/-- Inversion of an accepted record at the `process_line` level: validation
passed, cleaning succeeded, and the stats moved exactly by one total, one
valid, and one corrected when the corrected flag was set. -/
theorem process_line_accepted {st st2 : Stats} {r r2 : Record}
    (h : process_line st (.record r) = .ok st2 (some r2)) :
    validate_record r = true ∧
    ∃ c, clean_record r = .ok r2 c ∧
      st2 = { st with
              total_records := st.total_records + 1
              valid_records := st.valid_records + 1
              corrected_records := st.corrected_records + (if c then 1 else 0) } := by
  rw [process_line_record_eq] at h
  split at h
  · rename_i hv
    split at h
    · simp at h
    · simp at h
    · rename_i r3 c3 hcr
      injection h with hst hout
      injection hout with hrr
      subst hrr
      subst hst
      exact ⟨hv, c3, hcr, rfl⟩
  · simp at h

theorem getField_setField_eq (r : Record) (f : NumField) (v : NumVal) :
    getField (setField r f v) f = some v := by
  cases f <;> rfl

/-- Claim C4: for every parsed record whose `chamber_pressure` is present and
coerces to a negative number, and which is not otherwise dropped (it is
accepted by `process_line`), the accepted record carries `chamber_pressure`
replaced by its absolute value and `corrected_records` grows by exactly one
for that record, whatever happened to the other fields. -/
theorem C4_negative_pressure_corrected (st st2 : Stats) (r r2 : Record) (x : ℚ)
    (hp : r.chamber_pressure = some (.fl x)) (hx : x < 0)
    (h : process_line st (.record r) = .ok st2 (some r2)) :
    r2.chamber_pressure = some (.fl |x|) ∧
      st2.corrected_records = st.corrected_records + 1 := by
  obtain ⟨hv, c, hcr, hst⟩ := process_line_accepted h
  obtain ⟨⟨s, hts⟩, a1, a2, h1, h2, h3⟩ := clean_record_accepted hcr
  have h1b : cleanStep .pressure (r, false) =
      some (setField r .pressure (.fl |x|), true) := by
    rw [cleanStep_spec]
    simp only [getField, hp]
    rw [if_pos hx]
  rw [h1b] at h1
  injection h1 with h1c
  subst h1c
  rcases a2 with ⟨rB, cB⟩
  have hcB : cB = true := cleanStep_mono h2
  subst hcB
  have hc : c = true := cleanStep_mono h3
  subst hc
  constructor
  · have e2 := cleanStep_preserves .pressure h2 (by decide)
    have e3 := cleanStep_preserves .pressure h3 (by decide)
    have : getField r2 .pressure = some (.fl |x|) := by
      rw [e3, e2, getField_setField_eq]
    exact this
  · rw [hst]
    rfl

/-- Claim C9: a record dropped during numeric cleaning after an earlier field
of the same record was already corrected (here: a negative chamber pressure
corrected before the drop) does not move `corrected_records`: the resulting
stats only gain one `total_records` and one `dropped_records`, leaving
`corrected_records` at its old value. -/
theorem C9_drop_after_correction_uncounted (st : Stats) (r : Record) (p : ℚ)
    (hp : r.chamber_pressure = some (.fl p)) (hneg : p < 0)
    (hv : validate_record r = true) (hd : clean_record r = .drop) :
    process_line st (.record r) =
      .ok { st with
            total_records := st.total_records + 1
            dropped_records := st.dropped_records + 1 } none := by
  rw [process_line_record_eq]
  simp [hv, hd]

/-- Claim C3 (amended): for every parsed record whose temperature is present
and coerces to a number strictly below −273.15, and whose timestamp value is
not a present non-string JSON value (that case takes the uncaught-exception
path of `clean_record`, see the C3 counterexample), the record is dropped:
`process_line` yields no record, `dropped_records` grows by exactly one, and
no other counter (in particular `corrected_records`) moves. -/
theorem C3_subzero_temperature_drop (st : Stats) (r : Record) (x : ℚ)
    (ht : r.temperature = some (.fl x)) (hx : x < -273.15)
    (hts : r.timestamp ≠ some TsVal.nonStr) :
    process_line st (.record r) =
      .ok { st with
            total_records := st.total_records + 1
            dropped_records := st.dropped_records + 1 } none := by
  rw [process_line_record_eq]
  cases hv : validate_record r with
  | false => simp only [hv, Bool.false_eq_true, if_false]
  | true =>
    have hdrop : clean_record r = .drop := by
      unfold clean_record
      rcases hts2 : r.timestamp with _ | tv
      · rfl
      · rcases tv with ⟨s, b⟩ | _
        · cases b
          · simp
          · simp only [if_true]
            rcases h1 : cleanStep .pressure (r, false) with _ | a1
            · simp only [cleanFields, numeric_fields, h1]
            · rcases h2 : cleanStep .flow a1 with _ | a2
              · simp only [cleanFields, numeric_fields, h1, h2]
              · rcases a1 with ⟨r1, c1⟩
                rcases a2 with ⟨rB, cB⟩
                have h3 : cleanStep .temp (rB, cB) = none := by
                  rw [cleanStep_spec]
                  have e1 := cleanStep_preserves .temp h1 (by decide)
                  have e2 := cleanStep_preserves .temp h2 (by decide)
                  have : getField rB .temp = some (.fl x) := by
                    rw [e2, e1]
                    exact ht
                  rw [this]
                  simp only [if_pos hx]
                simp only [cleanFields, numeric_fields, h1, h2, h3]
        · exact absurd hts2 hts
    simp [hv, hdrop]

theorem process_line_counts {st st2 : Stats} {l : LineInput} {out : Option Record}
    (h : process_line st l = .ok st2 out) :
    st2.total_records + st.valid_records + st.dropped_records
      = st.total_records + st2.valid_records + st2.dropped_records ∧
    st2.total_records = st.total_records + (if isParsedLine l then 1 else 0) ∧
    st2.parsing_errors = st.parsing_errors + (if isMalformedLine l then 1 else 0) := by
  cases l with
  | blank =>
    injection h with h1 h2
    subst h1
    simp [isParsedLine, isMalformedLine]
  | malformed =>
    injection h with h1 h2
    subst h1
    simp [isParsedLine, isMalformedLine]
  | record r =>
    rw [process_line_record_eq] at h
    split at h
    · split at h
      · injection h with h1 h2
        subst h1
        simp [isParsedLine, isMalformedLine]
        omega
      · cases h
      · injection h with h1 h2
        subst h1
        rename_i r3 c3 hcr
        cases c3 <;> simp [isParsedLine, isMalformedLine] <;> omega
    · injection h with h1 h2
      subst h1
      simp [isParsedLine, isMalformedLine]
      omega
  | nonObject v =>
    cases v with
    | scalar => simp [process_line] at h
    | containerMissingField =>
      injection h with h1 h2
      subst h1
      simp [isParsedLine, isMalformedLine]
      omega
    | containerWithBothFields => simp [process_line] at h

theorem processLines_counts (lines : List LineInput) :
    ∀ (st : Stats) (acc : List Record),
      (processLines st acc lines).2.2 = false →
      (processLines st acc lines).1.total_records + st.valid_records + st.dropped_records
        = st.total_records + (processLines st acc lines).1.valid_records
            + (processLines st acc lines).1.dropped_records ∧
      (processLines st acc lines).1.total_records
        = st.total_records + (lines.filter isParsedLine).length ∧
      (processLines st acc lines).1.parsing_errors
        = st.parsing_errors + (lines.filter isMalformedLine).length := by
  induction lines with
  | nil =>
    intro st acc h
    simp [processLines]
  | cons l ls ih =>
    intro st acc h
    have hrec : ((l :: ls).filter isParsedLine).length
        = (if isParsedLine l then 1 else 0) + (ls.filter isParsedLine).length := by
      rw [List.filter_cons]
      cases isParsedLine l <;> simp <;> omega
    have hmal : ((l :: ls).filter isMalformedLine).length
        = (if isMalformedLine l then 1 else 0) + (ls.filter isMalformedLine).length := by
      rw [List.filter_cons]
      cases isMalformedLine l <;> simp <;> omega
    cases hpl : process_line st l with
    | ok st1 out =>
      have hcounts := process_line_counts hpl
      cases out with
      | none =>
        have hstep : processLines st acc (l :: ls) = processLines st1 acc ls := by
          simp only [processLines, hpl]
        rw [hstep] at h ⊢
        have := ih st1 acc h
        rw [hrec, hmal]
        omega
      | some r =>
        have hstep : processLines st acc (l :: ls) = processLines st1 (acc ++ [r]) ls := by
          simp only [processLines, hpl]
        rw [hstep] at h ⊢
        have := ih st1 (acc ++ [r]) h
        rw [hrec, hmal]
        omega
    | exn st1 =>
      have hstep : processLines st acc (l :: ls) = (st1, acc, true) := by
        simp only [processLines, hpl]
      rw [hstep] at h
      cases h

theorem write_csv_keeps_counts (st : Stats) (rs : List Record) :
    (write_csv st rs).1.total_records = st.total_records ∧
    (write_csv st rs).1.valid_records = st.valid_records ∧
    (write_csv st rs).1.dropped_records = st.dropped_records ∧
    (write_csv st rs).1.parsing_errors = st.parsing_errors := by
  unfold write_csv
  split
  · exact ⟨rfl, rfl, rfl, rfl⟩
  · by_cases hd : (dedupGo [] rs).2 > 0
    · simp [if_pos hd]
    · simp [if_neg hd]

/-- Claim C8 (amended): for every input stream whose processing is not
aborted by an uncaught per-record exception — a record with a present
non-string timestamp, a line parsing to a non-object scalar, or a line
parsing to a non-object string/array containing both required names — the
final stats satisfy `total_records = valid_records + dropped_records`;
`total_records` counts exactly the successfully parsed lines, and
`parsing_errors` counts exactly the malformed lines (blank and comment
lines counted nowhere). -/
theorem C8_stats_invariant (lines : List LineInput)
    (h : (process_stream lines).aborted = false) :
    (process_stream lines).stats.total_records
      = (process_stream lines).stats.valid_records
          + (process_stream lines).stats.dropped_records ∧
    (process_stream lines).stats.total_records = (lines.filter isParsedLine).length ∧
    (process_stream lines).stats.parsing_errors = (lines.filter isMalformedLine).length := by
  have hab : (processLines initStats [] lines).2.2 = false := h
  have hc := processLines_counts lines initStats [] hab
  have hw := write_csv_keeps_counts (processLines initStats [] lines).1
    (processLines initStats [] lines).2.1
  have hst : (process_stream lines).stats
      = (write_csv (processLines initStats [] lines).1
          (processLines initStats [] lines).2.1).1 := rfl
  rw [hst]
  rw [show initStats.total_records = 0 from rfl, show initStats.valid_records = 0 from rfl,
      show initStats.dropped_records = 0 from rfl,
      show initStats.parsing_errors = 0 from rfl] at hc
  omega

/-- Claim C10: if zero records survive validation and cleaning, `write_csv`
returns before touching the output path, so no file is written at all — while
`log_summary` still receives and reports the final statistics. -/
theorem C10_no_file_without_survivors (lines : List LineInput)
    (h : surviving_records lines = []) :
    (process_stream lines).output = .noFile ∧
    (process_stream lines).summary = log_summary (process_stream lines).stats := by
  constructor
  · have hout : (process_stream lines).output
        = (write_csv (processLines initStats [] lines).1
            (processLines initStats [] lines).2.1).2 := rfl
    rw [hout]
    unfold surviving_records at h
    rw [h]
    unfold write_csv
    rw [if_pos rfl]
  · rfl

theorem dedupGo_filter (k : Option TsVal × Option String) (rs : List Record) :
    ∀ seen : List (Option TsVal × Option String),
      ((dedupGo seen rs).1.filter (fun r => decide (recordKey r = k)))
        = if k ∈ seen then []
          else (rs.filter (fun r => decide (recordKey r = k))).take 1 := by
  induction rs with
  | nil =>
    intro seen
    simp [dedupGo]
  | cons r rs ih =>
    intro seen
    unfold dedupGo
    by_cases hs : recordKey r ∈ seen
    · rw [if_pos hs, ih seen]
      by_cases hk : recordKey r = k
      · subst hk
        simp [hs]
      · rw [List.filter_cons_of_neg (by simp [hk])]
    · rw [if_neg hs]
      by_cases hk : recordKey r = k
      · subst hk
        rw [List.filter_cons_of_pos (by simp), List.filter_cons_of_pos (by simp)]
        rw [ih (recordKey r :: seen)]
        simp [hs]
      · rw [List.filter_cons_of_neg (by simp [hk]), List.filter_cons_of_neg (by simp [hk])]
        rw [ih (recordKey r :: seen)]
        have hmem : (k ∈ recordKey r :: seen) ↔ (k ∈ seen) := by
          simp [List.mem_cons]
          intro hkk
          exact absurd hkk.symm hk
        by_cases hin : k ∈ seen
        · rw [if_pos (hmem.mpr hin), if_pos hin]
        · rw [if_neg (fun hc => hin (hmem.mp hc)), if_neg hin]

theorem dedupGo_length (rs : List Record) :
    ∀ seen, (dedupGo seen rs).2 + (dedupGo seen rs).1.length = rs.length := by
  induction rs with
  | nil => intro seen; simp [dedupGo]
  | cons r rs ih =>
    intro seen
    unfold dedupGo
    by_cases hs : recordKey r ∈ seen
    · rw [if_pos hs]
      have := ih seen
      simp only [List.length_cons]
      omega
    · rw [if_neg hs]
      have := ih (recordKey r :: seen)
      simp only [List.length_cons]
      omega

/-- Claim C2: end-of-stream dedup is first-wins — for every list of accepted
records and every `(timestamp, engine_id)` key, the deduplicated output
restricted to that key is exactly the first record encountered under the key
in stream order (regardless of payload); every later record with the same key
is excluded, and the excluded records are counted one each into
`duplicate_records` by `write_csv`. -/
theorem C2_dedup_first_wins (rs : List Record) (st : Stats)
    (k : Option TsVal × Option String) (h0 : st.duplicate_records = 0) :
    ((dedupGo [] rs).1.filter (fun r => decide (recordKey r = k)))
      = (rs.filter (fun r => decide (recordKey r = k))).take 1 ∧
    (dedupGo [] rs).2 + (dedupGo [] rs).1.length = rs.length ∧
    (rs ≠ [] → (write_csv st rs).2 = .file (dedupGo [] rs).1) ∧
    (write_csv st rs).1.duplicate_records = (dedupGo [] rs).2 := by
  refine ⟨?_, dedupGo_length rs [], ?_, ?_⟩
  · rw [dedupGo_filter k rs []]
    simp
  · intro hne
    unfold write_csv
    rw [if_neg hne]
  · unfold write_csv
    by_cases hne : rs = []
    · rw [if_pos hne]
      subst hne
      rw [h0]
      rfl
    · rw [if_neg hne]
      by_cases hd : (dedupGo [] rs).2 > 0
      · simp [if_pos hd]
      · simp [if_neg hd]
        omega

theorem genLoop_fst_length (steps : List GenStep) :
    ∀ (first : Bool) (ts : ℚ), ((genLoop first ts steps).1).length = steps.length := by
  induction steps with
  | nil => intro first ts; rfl
  | cons s ss ih =>
    intro first ts
    simp only [genLoop, List.length_cons]
    rw [ih]

theorem genLoop_snd_length (steps : List GenStep) :
    ∀ (first : Bool) (ts : ℚ), ((genLoop first ts steps).2).length = dupCount steps := by
  induction steps with
  | nil => intro first ts; rfl
  | cons s ss ih =>
    intro first ts
    have hdc : dupCount (s :: ss) = (if s.dup then 1 else 0) + dupCount ss := by
      simp only [dupCount, List.filter_cons]
      cases s.dup <;> simp <;> omega
    simp only [genLoop, List.length_append]
    rw [hdc, ih]
    cases s.dup <;> simp

theorem inject_critical_failure_timestamp (ft : FailureType) (v : ℚ) (r : Reading) :
    (inject_critical_failure ft v r).timestamp = r.timestamp := by
  cases ft <;> rfl

theorem removeField_timestamp (r : Reading) (f : NumField) :
    (removeField r f).timestamp = r.timestamp := by
  cases f <;> rfl

theorem inject_missing_fields_timestamp (fs : List NumField) :
    ∀ r : Reading, (inject_missing_fields fs r).timestamp = r.timestamp := by
  induction fs with
  | nil => intro r; rfl
  | cons f fs ih =>
    intro r
    unfold inject_missing_fields at ih ⊢
    rw [List.foldl_cons, ih, removeField_timestamp]

theorem inject_out_of_range_timestamp (f : NumField) (v : ℚ) (r : Reading) :
    (inject_out_of_range f v r).timestamp = r.timestamp := by
  cases f <;> rfl

theorem inject_anomalies_timestamp (d : AnomalyDraw) (r : Reading) :
    (inject_anomalies d r).timestamp = r.timestamp := by
  unfold inject_anomalies
  split
  · rw [inject_critical_failure_timestamp]
  · split
    · rw [inject_missing_fields_timestamp]
    · split
      · rw [inject_out_of_range_timestamp]
      · rfl

theorem stepReading_timestamp (ts : ℚ) (s : GenStep) :
    (stepReading ts s).timestamp = ts := by
  unfold stepReading
  rw [inject_anomalies_timestamp]
  rfl

theorem genLoop_timestamps (steps : List GenStep) :
    ∀ (first : Bool) (ts : ℚ),
      ((genLoop first ts steps).1).map (·.timestamp) = specTimeline first ts steps := by
  induction steps with
  | nil => intro first ts; rfl
  | cons s ss ih =>
    intro first ts
    simp only [genLoop, specTimeline, List.map_cons]
    rw [stepReading_timestamp, ih]

theorem specTimeline_chain (steps : List GenStep) :
    ∀ t : ℚ, (∀ s ∈ steps, 1 ≤ s.interval) →
      List.Chain (· ≤ ·) t (specTimeline false t steps) := by
  induction steps with
  | nil => intro t h; exact List.Chain.nil
  | cons s ss ih =>
    intro t h
    have h1 : (1 : ℚ) ≤ s.interval := h s (List.mem_cons_self _ _)
    have hle : t ≤ t + s.interval := le_add_of_nonneg_right (by linarith)
    exact List.Chain.cons hle (ih (t + s.interval) (fun x hx => h x (List.mem_cons_of_mem _ hx)))

/-- Claim C6: in every generated batch the timestamps of the first `N`
(non-duplicate) readings follow the spec timeline — the first reading uses
the generation start time and each further reading adds that step’s interval —
and, the intervals being drawn from `[1, 5]`, the resulting sequence is
non-decreasing. -/
theorem C6_monotonic_timestamps (start : ℚ) (steps : List GenStep)
    (h : ∀ s ∈ steps, 1 ≤ s.interval ∧ s.interval ≤ 5) :
    (((generate_telemetry_batch start steps).take steps.length).map (·.timestamp)
        = specTimeline true start steps) ∧
    List.Chain' (· ≤ ·)
      (((generate_telemetry_batch start steps).take steps.length).map (·.timestamp)) ∧
    (steps ≠ [] →
      (((generate_telemetry_batch start steps).take steps.length).map (·.timestamp)).head?
        = some start) := by
  have hlen := genLoop_fst_length steps true start
  have hmap : ((generate_telemetry_batch start steps).take steps.length).map (·.timestamp)
      = specTimeline true start steps := by
    unfold generate_telemetry_batch
    rw [← hlen, List.take_left]
    exact genLoop_timestamps steps true start
  refine ⟨hmap, ?_, ?_⟩
  · rw [hmap]
    cases steps with
    | nil => exact trivial
    | cons s ss =>
      show List.Chain (· ≤ ·) start (specTimeline false start ss)
      exact specTimeline_chain ss start (fun x hx => (h x (List.mem_cons_of_mem _ hx)).1)
  · intro hne
    rw [hmap]
    cases steps with
    | nil => exact absurd rfl hne
    | cons s ss => rfl

theorem genLoop_dups_sublist (steps : List GenStep) :
    ∀ (first : Bool) (ts : ℚ),
      ((genLoop first ts steps).2).Sublist ((genLoop first ts steps).1) := by
  induction steps with
  | nil => intro first ts; exact List.Sublist.refl []
  | cons s ss ih =>
    intro first ts
    simp only [genLoop]
    rcases hd : s.dup with _ | _
    · simp only [hd, Bool.false_eq_true, if_false, List.nil_append]
      exact (ih false _).cons _
    · simp only [hd, if_true, List.singleton_append]
      exact (ih false _).cons₂ _

/-- Claim C5: the generated batch has length `N` plus the number of
duplicates, and the records after position `N` (the duplicates) form a
sublist of the first `N` primary records: every duplicate is an identical
copy of some earlier record and trails the whole primary sequence. -/
theorem C5_duplicates_trail (start : ℚ) (steps : List GenStep) :
    (generate_telemetry_batch start steps).length = steps.length + dupCount steps ∧
    ((generate_telemetry_batch start steps).drop steps.length).Sublist
      ((generate_telemetry_batch start steps).take steps.length) := by
  unfold generate_telemetry_batch
  have hlen := genLoop_fst_length steps true start
  constructor
  · rw [List.length_append, hlen, genLoop_snd_length]
  · rw [← hlen, List.take_left, List.drop_left]
    exact genLoop_dups_sublist steps true start


/-- Claim C1: the claim says one malformed or invalid record is always
recovered locally and the rest of the stream is still processed. The code
violates this: on `c1lines` (valid record, record with a non-string
timestamp, valid record) the run is aborted at line 2 — only 2 of the 3
records are ever counted, the third (valid) record is missing from the
output, and the offending record is counted neither dropped nor valid. The
`try` in `process_stream` wraps the whole read loop, so the `AttributeError`
escaping `clean_record` ends the iteration. -/
theorem C1_nonstring_timestamp_aborts_stream :
    (process_stream c1lines).aborted = true ∧
    (process_stream c1lines).stats.total_records = 2 ∧
    (process_stream c1lines).stats.valid_records = 1 ∧
    (process_stream c1lines).stats.dropped_records = 0 ∧
    (process_stream c1lines).stats.parsing_errors = 0 ∧
    (process_stream c1lines).output = .file [cleanRec] := by
  refine ⟨?_, ?_, ?_, ?_, ?_, ?_⟩ <;> with_unfolding_all rfl

/-- Witness for C2 at the concrete pair of accepted records sharing a key
with different payloads: the output keeps only the first, one duplicate is
counted. -/
theorem C2_dedup_first_wins_witness :
    initStats.duplicate_records = 0 ∧
    (((dedupGo [] c2rows).1.filter (fun r => decide (recordKey r = recordKey cleanRec)))
        = (c2rows.filter (fun r => decide (recordKey r = recordKey cleanRec))).take 1 ∧
      (dedupGo [] c2rows).2 + (dedupGo [] c2rows).1.length = c2rows.length ∧
      (c2rows ≠ [] → (write_csv initStats c2rows).2 = .file (dedupGo [] c2rows).1) ∧
      (write_csv initStats c2rows).1.duplicate_records = (dedupGo [] c2rows).2) :=
  ⟨rfl, C2_dedup_first_wins c2rows initStats (recordKey cleanRec) rfl⟩

/-- Counterexample to claim C3 as stated: `nonStrTsSubZeroRec` has a
temperature present and coercing to −300 < −273.15, yet processing it does
not increment `dropped_records` (the uncaught `AttributeError` on its
non-string timestamp escapes before the temperature check, and no counter
beyond `total_records` moves). -/
theorem C3_counterexample_nonstring_timestamp :
    nonStrTsSubZeroRec.temperature = some (NumVal.fl (-300)) ∧
    ((-300 : ℚ) < -273.15) ∧
    process_line initStats (.record nonStrTsSubZeroRec)
      = .exn { initStats with total_records := 1 } ∧
    ({ initStats with total_records := 1 } : Stats).dropped_records
      = initStats.dropped_records := by
  with_unfolding_all decide

/-- Witness for the amended C3 at a concrete sub-absolute-zero record with a
valid string timestamp. -/
theorem C3_subzero_temperature_drop_witness :
    subZeroRec.temperature = some (NumVal.fl (-300)) ∧
    ((-300 : ℚ) < -273.15) ∧
    subZeroRec.timestamp ≠ some TsVal.nonStr ∧
    process_line initStats (.record subZeroRec)
      = .ok { initStats with
              total_records := initStats.total_records + 1
              dropped_records := initStats.dropped_records + 1 } none :=
  ⟨rfl, by with_unfolding_all decide, by with_unfolding_all decide,
    C3_subzero_temperature_drop initStats subZeroRec (-300) rfl
      (by with_unfolding_all decide) (by with_unfolding_all decide)⟩

/-- Witness for C4 at the concrete record with chamber pressure −40: the
accepted record carries pressure 40 and exactly one correction is counted. -/
theorem C4_negative_pressure_corrected_witness :
    dirtyRec.chamber_pressure = some (NumVal.fl (-40)) ∧
    ((-40 : ℚ) < 0) ∧
    process_line initStats (.record dirtyRec)
      = .ok statsOneCorrected (some dirtyRecCleaned) ∧
    (dirtyRecCleaned.chamber_pressure = some (NumVal.fl |(-40 : ℚ)|) ∧
      statsOneCorrected.corrected_records = initStats.corrected_records + 1) :=
  ⟨rfl, by with_unfolding_all decide, by with_unfolding_all rfl,
    C4_negative_pressure_corrected initStats statsOneCorrected dirtyRec dirtyRecCleaned
      (-40) rfl (by with_unfolding_all decide) (by with_unfolding_all rfl)⟩

/-- Witness for C6 at the concrete two-step batch with intervals 2 and 3. -/
theorem C6_monotonic_timestamps_witness :
    (∀ s ∈ c6steps, 1 ≤ s.interval ∧ s.interval ≤ 5) ∧
    ((((generate_telemetry_batch 0 c6steps).take c6steps.length).map (·.timestamp)
        = specTimeline true 0 c6steps) ∧
      List.Chain' (· ≤ ·)
        (((generate_telemetry_batch 0 c6steps).take c6steps.length).map (·.timestamp)) ∧
      (c6steps ≠ [] →
        ((((generate_telemetry_batch 0 c6steps).take c6steps.length).map (·.timestamp)).head?
          = some 0))) :=
  ⟨by with_unfolding_all decide,
    C6_monotonic_timestamps 0 c6steps (by with_unfolding_all decide)⟩

/-- Witness for C7: the cleaned form of `dirtyRec` passes a second cleaning
unchanged, with no correction and no drop. -/
theorem C7_cleaning_idempotent_witness :
    clean_record dirtyRec = CleanResult.ok dirtyRecCleaned true ∧
    clean_record dirtyRecCleaned = CleanResult.ok dirtyRecCleaned false :=
  ⟨by with_unfolding_all rfl,
    C7_cleaning_idempotent dirtyRec dirtyRecCleaned true (by with_unfolding_all rfl)⟩

/-- Counterexample to claim C8 as stated, at both abort families. On the
one-line stream whose only record has a non-string timestamp, and likewise
on the one-line stream parsing to a non-object scalar (the line `123`,
which raises `TypeError` in `validate_record` after `total_records` was
incremented), the final stats have `total_records = 1` but
`valid_records = 0` and `dropped_records = 0`, so
`total_records = valid_records + dropped_records` fails — the line that
aborted the loop is counted in the total but neither valid nor dropped. -/
theorem C8_counterexample_aborted_run :
    ((process_stream [LineInput.record nonStrTsRec]).stats.total_records = 1 ∧
      (process_stream [LineInput.record nonStrTsRec]).stats.valid_records = 0 ∧
      (process_stream [LineInput.record nonStrTsRec]).stats.dropped_records = 0 ∧
      (process_stream [LineInput.record nonStrTsRec]).stats.total_records
        ≠ (process_stream [LineInput.record nonStrTsRec]).stats.valid_records
            + (process_stream [LineInput.record nonStrTsRec]).stats.dropped_records) ∧
    ((process_stream [LineInput.nonObject NonObjVal.scalar]).stats.total_records = 1 ∧
      (process_stream [LineInput.nonObject NonObjVal.scalar]).stats.valid_records = 0 ∧
      (process_stream [LineInput.nonObject NonObjVal.scalar]).stats.dropped_records = 0 ∧
      (process_stream [LineInput.nonObject NonObjVal.scalar]).stats.total_records
        ≠ (process_stream [LineInput.nonObject NonObjVal.scalar]).stats.valid_records
            + (process_stream [LineInput.nonObject NonObjVal.scalar]).stats.dropped_records) := by
  with_unfolding_all decide

/-- Witness for the amended C8 on a stream with a blank line, a malformed
line, one valid record and one parsed non-object line that validation
drops. -/
theorem C8_stats_invariant_witness :
    (process_stream c8lines).aborted = false ∧
    ((process_stream c8lines).stats.total_records
        = (process_stream c8lines).stats.valid_records
            + (process_stream c8lines).stats.dropped_records ∧
      (process_stream c8lines).stats.total_records = (c8lines.filter isParsedLine).length ∧
      (process_stream c8lines).stats.parsing_errors
        = (c8lines.filter isMalformedLine).length) :=
  ⟨by with_unfolding_all decide, C8_stats_invariant c8lines (by with_unfolding_all decide)⟩

/-- Witness for C9 at the record whose pressure is corrected first and
whose temperature then drops it: the drop is counted, the correction is
not. -/
theorem C9_drop_after_correction_uncounted_witness :
    pressThenSubZeroRec.chamber_pressure = some (NumVal.fl (-40)) ∧
    ((-40 : ℚ) < 0) ∧
    validate_record pressThenSubZeroRec = true ∧
    clean_record pressThenSubZeroRec = CleanResult.drop ∧
    process_line initStats (.record pressThenSubZeroRec)
      = .ok { initStats with
              total_records := initStats.total_records + 1
              dropped_records := initStats.dropped_records + 1 } none :=
  ⟨rfl, by with_unfolding_all decide, by with_unfolding_all decide,
    by with_unfolding_all decide,
    C9_drop_after_correction_uncounted initStats pressThenSubZeroRec (-40) rfl
      (by with_unfolding_all decide) (by with_unfolding_all decide)
      (by with_unfolding_all decide)⟩

/-- Witness for C10 on a stream with one malformed line and no survivors. -/
theorem C10_no_file_without_survivors_witness :
    surviving_records c10lines = [] ∧
    ((process_stream c10lines).output = CsvOut.noFile ∧
      (process_stream c10lines).summary = log_summary (process_stream c10lines).stats) :=
  ⟨by with_unfolding_all decide,
    C10_no_file_without_survivors c10lines (by with_unfolding_all decide)⟩
